import Mathlib

/-!
Verification development for the `django_utils` repository.

Shallow embedding of the two specified subsystems:
* the generic index/constraint name generator
  (`django_utils/django/db/models/helpers.py`), together with the Django
  primitives it calls (`split_identifier`, `names_digest`, i.e. a truncated
  MD5 hex digest);
* the hashtag usage counter driven by model lifecycle signals
  (`django_utils/dju_taggit_core/signals.py`), as a state-transition system
  over an abstract database of tags and tagged items.

Python strings are modelled as Lean `String`s, with slicing/lowering/strip
helpers defined over the underlying character list so that Python's slice
semantics (including negative stops) are captured exactly.
-/

/-- Python `s[:n]` for a non-negative `n` (here a `Nat`): the first `n`
characters of `s`. -/
def pyTake (n : Nat) (s : String) : String :=
  String.mk (s.data.take n)

/-- Python `s[n:]` for a non-negative `n`: drop the first `n` characters. -/
def pyDrop (n : Nat) (s : String) : String :=
  String.mk (s.data.drop n)

/-- Python `s[:n]` where `n` may be negative: a negative stop counts from the
end of the string (`s[:-k]` drops the last `k` characters, clamping at 0). -/
def pySliceTo (n : Int) (s : String) : String :=
  if 0 ≤ n then String.mk (s.data.take n.toNat)
  else String.mk (s.data.take (s.data.length - (-n).toNat))

/-- Python `str.lower` (ASCII fragment, which covers every identifier this
repository passes in). -/
def pyLower (s : String) : String :=
  String.mk (s.data.map Char.toLower)

/-- Python `str.strip(c)`: remove all leading and trailing occurrences of the
character `c`. -/
def pyStrip (c : Char) (s : String) : String :=
  String.mk (((s.data.dropWhile (· == c)).reverse.dropWhile (· == c)).reverse)

/-- UTF-8 encoding of one character, as byte values; models Python
`str.encode()` character by character. -/
def utf8Bytes (c : Char) : List Nat :=
  let n := c.toNat
  if n < 128 then [n]
  else if n < 2048 then [192 + n / 64, 128 + n % 64]
  else if n < 65536 then [224 + n / 4096, 128 + (n / 64) % 64, 128 + n % 64]
  else [240 + n / 262144, 128 + (n / 4096) % 64, 128 + (n / 64) % 64, 128 + n % 64]

/-- UTF-8 bytes of a whole string (Python `s.encode()`). -/
def strBytes (s : String) : List Nat :=
  (s.data.map utf8Bytes).flatten

/-! ### MD5

`django.db.backends.utils.names_digest` hashes its arguments with MD5 and
truncates the hex digest.  MD5 is embedded here directly (RFC 1321), with
32-bit machine words modelled as `Nat` reduced `% 2^32`. -/

/-- Rotate a 32-bit word (a `Nat` below `2^32`) left by `n` bits. -/
def rotl32 (x n : Nat) : Nat :=
  ((x <<< n) % 4294967296) ||| (x >>> (32 - n))

/-- Bitwise complement of a 32-bit word. -/
def not32 (x : Nat) : Nat := x ^^^ 4294967295

/-- The 64 MD5 sine-derived round constants. -/
def md5K : List Nat :=
  [0xd76aa478, 0xe8c7b756, 0x242070db, 0xc1bdceee,
   0xf57c0faf, 0x4787c62a, 0xa8304613, 0xfd469501,
   0x698098d8, 0x8b44f7af, 0xffff5bb1, 0x895cd7be,
   0x6b901122, 0xfd987193, 0xa679438e, 0x49b40821,
   0xf61e2562, 0xc040b340, 0x265e5a51, 0xe9b6c7aa,
   0xd62f105d, 0x02441453, 0xd8a1e681, 0xe7d3fbc8,
   0x21e1cde6, 0xc33707d6, 0xf4d50d87, 0x455a14ed,
   0xa9e3e905, 0xfcefa3f8, 0x676f02d9, 0x8d2a4c8a,
   0xfffa3942, 0x8771f681, 0x6d9d6122, 0xfde5380c,
   0xa4beea44, 0x4bdecfa9, 0xf6bb4b60, 0xbebfbc70,
   0x289b7ec6, 0xeaa127fa, 0xd4ef3085, 0x04881d05,
   0xd9d4d039, 0xe6db99e5, 0x1fa27cf8, 0xc4ac5665,
   0xf4292244, 0x432aff97, 0xab9423a7, 0xfc93a039,
   0x655b59c3, 0x8f0ccc92, 0xffeff47d, 0x85845dd1,
   0x6fa87e4f, 0xfe2ce6e0, 0xa3014314, 0x4e0811a1,
   0xf7537e82, 0xbd3af235, 0x2ad7d2bb, 0xeb86d391]

/-- The 64 MD5 per-round left-rotation amounts. -/
def md5S : List Nat :=
  [7, 12, 17, 22, 7, 12, 17, 22, 7, 12, 17, 22, 7, 12, 17, 22,
   5, 9, 14, 20, 5, 9, 14, 20, 5, 9, 14, 20, 5, 9, 14, 20,
   4, 11, 16, 23, 4, 11, 16, 23, 4, 11, 16, 23, 4, 11, 16, 23,
   6, 10, 15, 21, 6, 10, 15, 21, 6, 10, 15, 21, 6, 10, 15, 21]

/-- One MD5 round: `M` fetches the 16 message words of the current block. -/
def md5Round (M : Nat → Nat) (st : Nat × Nat × Nat × Nat) (i : Nat) :
    Nat × Nat × Nat × Nat :=
  let (a, b, c, d) := st
  let fg : Nat × Nat :=
    if i < 16 then ((b &&& c) ||| (not32 b &&& d), i)
    else if i < 32 then ((d &&& b) ||| (not32 d &&& c), (5 * i + 1) % 16)
    else if i < 48 then (b ^^^ c ^^^ d, (3 * i + 5) % 16)
    else (c ^^^ (b ||| not32 d), (7 * i) % 16)
  let f := (fg.1 + a + md5K.getD i 0 + M fg.2) % 4294967296
  (d, (b + rotl32 f (md5S.getD i 0)) % 4294967296, b, c)

/-- Process one 64-byte block, updating the running state. -/
def md5Block (st : Nat × Nat × Nat × Nat) (block : List Nat) :
    Nat × Nat × Nat × Nat :=
  let M : Nat → Nat := fun g =>
    block.getD (4 * g) 0 + 256 * block.getD (4 * g + 1) 0 +
      65536 * block.getD (4 * g + 2) 0 + 16777216 * block.getD (4 * g + 3) 0
  let r := (List.range 64).foldl (md5Round M) st
  ((st.1 + r.1) % 4294967296, (st.2.1 + r.2.1) % 4294967296,
   (st.2.2.1 + r.2.2.1) % 4294967296, (st.2.2.2 + r.2.2.2) % 4294967296)

/-- MD5 padding: one `0x80` byte, zero bytes up to 56 mod 64, then the bit
length as 8 little-endian bytes. -/
def md5Pad (msg : List Nat) : List Nat :=
  let len := msg.length
  let zeros := (120 - ((len + 1) % 64)) % 64
  msg ++ [128] ++ List.replicate zeros 0 ++
    (List.range 8).map (fun i => ((len * 8) >>> (8 * i)) % 256)

/-- Split a byte list into 64-byte chunks (fuel-recursive so that it reduces
structurally; the fuel is the list length, an upper bound on the number of
chunks). -/
def chunks64 : Nat → List Nat → List (List Nat)
  | 0, _ => []
  | _, [] => []
  | fuel + 1, a :: rest => ((a :: rest).take 64) :: chunks64 fuel ((a :: rest).drop 64)

/-- The four little-endian bytes of a 32-bit word. -/
def wordBytesLE (w : Nat) : List Nat :=
  [w % 256, (w >>> 8) % 256, (w >>> 16) % 256, (w >>> 24) % 256]

/-- MD5 digest of a byte message, as 16 bytes. -/
def md5Bytes (msg : List Nat) : List Nat :=
  let padded := md5Pad msg
  let st := (chunks64 padded.length padded).foldl md5Block
    (0x67452301, 0xefcdab89, 0x98badcfe, 0x10325476)
  wordBytesLE st.1 ++ wordBytesLE st.2.1 ++ wordBytesLE st.2.2.1 ++ wordBytesLE st.2.2.2

/-- Lowercase hex character for a value below 16. -/
def hexDigit (n : Nat) : Char :=
  if n < 10 then Char.ofNat (48 + n) else Char.ofNat (87 + n)

/-- Two lowercase hex characters of one byte. -/
def byteHex (b : Nat) : List Char :=
  [hexDigit (b / 16), hexDigit (b % 16)]

/-- Python `hashlib.md5(msg).hexdigest()` over a byte message: the 32-character
lowercase hex digest. -/
def md5hex (msg : List Nat) : String :=
  String.mk ((md5Bytes msg).map byteHex).flatten

/-! ### Django primitives

`split_identifier` and `names_digest` from `django.db.backends.utils`, exactly
as the repository imports them. -/

/-- Leftmost non-overlapping split of a character list on a non-empty
separator, fuel-recursive (called with the list length as fuel, an upper
bound on the number of steps since every step consumes at least one
character).  `acc` holds the reversed characters of the current piece. -/
def splitOnChars (sep : List Char) : Nat → List Char → List Char → List (List Char)
  | 0, acc, l => [acc.reverse ++ l]
  | fuel + 1, acc, l =>
    match l with
    | [] => [acc.reverse]
    | c :: rest =>
      if sep.isPrefixOf (c :: rest) then
        acc.reverse :: splitOnChars sep fuel [] ((c :: rest).drop sep.length)
      else splitOnChars sep fuel (c :: acc) rest

/-- Python `s.split(sep)` for a non-empty separator. -/
def pySplit (s : String) (sep : String) : List String :=
  (splitOnChars sep.data s.data.length [] s.data).map String.mk

/-- Python `'_'.join(parts)`. -/
def pyJoin (sep : String) : List String → String
  | [] => ""
  | [x] => x
  | x :: y :: rest => x ++ sep ++ pyJoin sep (y :: rest)

/-- Django `split_identifier`: split an SQL identifier into
`(namespace, name)`.  The separator is the three-character sequence
quote-dot-quote; when it does not split the identifier into exactly two
pieces, the namespace is empty and the whole identifier is the name.  Both
pieces are stripped of surrounding double quotes. -/
def split_identifier (identifier : String) : String × String :=
  match pySplit identifier "\".\"" with
  | [ns, name] => (pyStrip '"' ns, pyStrip '"' name)
  | _ => ("", pyStrip '"' identifier)

/-- Django `names_digest(*args, length=length)`: feed the UTF-8 encoding of
each argument into MD5 and truncate the hex digest with Python slicing
(`length` may be negative, in which case the slice counts from the end). -/
def names_digest (args : List String) (length : Int) : String :=
  pySliceTo length (md5hex (args.map strBytes).flatten)

/-! ### The index-name generator
(`django_utils/django/db/models/helpers.py`)

The runtime `isinstance` type checks of the source cannot fail in this typed
embedding, so they are not represented.  The `IndexError` that Python raises
when `column_names[0]` is evaluated on an empty collection, and the
`ValueError` for over-long names, are modelled with `Except`. -/

inductive PyError where
  /-- `IndexError` from `column_names[0]` on an empty collection. -/
  | indexError
  /-- `ValueError("Index too long for multiple database support. ...")`. -/
  | valueError
deriving DecidableEq, Repr

deriving instance DecidableEq for Except

/-- The lowercased table name with its quoted namespace qualifier stripped
(lines 34–35 of `helpers.py`). -/
def processedTable (table_name : String) : String :=
  (split_identifier (pyLower table_name)).2

/-- `fields_orders`: split each field into a bare column name and an order
marker, a leading `-` meaning descending (line 36–39 of `helpers.py`). -/
def fieldsOrders (fields : List String) : List (String × String) :=
  fields.map (fun field_name =>
    if field_name.data.head? = some '-' then (pyDrop 1 field_name, "DESC")
    else (field_name, ""))

/-- `column_names`: the bare column names (line 40 of `helpers.py`). -/
def columnNames (fields : List String) : List String :=
  (fieldsOrders fields).map Prod.fst

/-- `column_names_with_order`: the sign-prefixed representation used for
hashing (lines 41–44 of `helpers.py`). -/
def columnNamesWithOrder (fields : List String) : List String :=
  ((columnNames fields).zip (fieldsOrders fields)).map
    (fun p => if p.2.2 = "" then p.1 else "-" ++ p.1)

/-- `hash_data` (line 47 of `helpers.py`). -/
def hashData (table_name : String) (fields : List String) (suffix : String) :
    List String :=
  processedTable table_name :: columnNamesWithOrder fields ++ [suffix]

/-- The composed name of line 49–51 of `helpers.py`, before the length check
and the leading-character fix:
`f'{table_name[:11]}_{column_names[0][:7]}_{names_digest(*hash_data, length=hash_length)}_{suffix}'`
with `hash_length = 9 - len(suffix)`. -/
def rawName (table_name : String) (fields : List String) (suffix : String) :
    String :=
  pyTake 11 (processedTable table_name) ++ "_" ++
    pyTake 7 ((columnNames fields).headD "") ++ "_" ++
    names_digest (hashData table_name fields suffix) (9 - (suffix.length : Int)) ++
    "_" ++ suffix

/-- The leading-character fix of lines 58–59 of `helpers.py`, on the
character list: if the name starts with `_` or a digit, replace that first
character by `D` (`name = f'D{name[1:]}'`; the name is never empty there, so
the empty case is unreachable). -/
def dFixList : List Char → List Char
  | [] => []
  | c :: rest => if c = '_' ∨ c.isDigit then 'D' :: rest else c :: rest

/-- The leading-character fix of lines 58–59 of `helpers.py`. -/
def dReplace (s : String) : String :=
  String.mk (dFixList s.data)

/-- `create_generic_index_name` (lines 10–60 of `helpers.py`). -/
def create_generic_index_name (table_name : String) (fields : List String)
    (suffix : String) : Except PyError String :=
  if (columnNames fields).isEmpty then .error .indexError
  else
    let name := rawName table_name fields suffix
    if 30 < name.length then .error .valueError
    else .ok (dReplace name)

/-! ### The old generator variant
(`create_generic_index_name_old`, lines 63–110 of `helpers.py`)

The database connection is external; the function only reads
`connection.ops.max_name_length()`, modelled as an `Option Nat` parameter
(`none`/`some 0` are falsy, so `or 200` yields 200 for them). -/

/-- `hash_suffix_part` (line 89 of `helpers.py`). -/
def oldHashSuffixPart (table_name : String) (column_names : List String)
    (suffix : String) : String :=
  names_digest (processedTable table_name :: column_names) 8 ++ "_" ++ suffix

/-- `max_length = connection.ops.max_name_length() or 200` (line 94). -/
def oldMaxLength (maxNameLength : Option Nat) : Nat :=
  match maxNameLength with
  | none => 200
  | some 0 => 200
  | some n => n

/-- The untruncated `index_name` of line 96 of `helpers.py`. -/
def oldRawName (table_name : String) (column_names : List String)
    (suffix : String) : String :=
  processedTable table_name ++ "_" ++ pyJoin "_" column_names ++
    "_" ++ oldHashSuffixPart table_name column_names suffix

/-- The truncated `index_name` of lines 99–105 of `helpers.py` (suffix part
shortened when above a third of the budget, the other two parts cut to
`(max_length - len(hash_suffix_part)) // 2 - 1` characters, with Python floor
division and slicing on possibly negative numbers). -/
def oldTruncatedName (table_name : String) (column_names : List String)
    (suffix : String) (maxNameLength : Option Nat) : String :=
  let maxLen := oldMaxLength maxNameLength
  let hsp := oldHashSuffixPart table_name column_names suffix
  let hsp := if maxLen < 3 * hsp.length then pySliceTo ((maxLen / 3 : Nat) : Int) hsp else hsp
  let otherLength : Int := Int.fdiv ((maxLen : Int) - (hsp.length : Int)) 2 - 1
  pySliceTo otherLength (processedTable table_name) ++ "_" ++
    pySliceTo otherLength (pyJoin "_" column_names) ++ "_" ++ hsp

/-- The leading-character fix of lines 106–109 of `helpers.py`: prepend `D`
and drop the final character (`f'D{index_name[:-1]}'`). -/
def dPrepend (s : String) : String :=
  match s.data with
  | [] => s
  | c :: _ => if c = '_' ∨ c.isDigit then "D" ++ pySliceTo (-1 : Int) s else s

/-- `create_generic_index_name_old` (lines 63–110 of `helpers.py`).  Note the
early return on line 97–98 happens before the leading-character fix. -/
def create_generic_index_name_old (table_name : String)
    (column_names : List String) (suffix : String)
    (maxNameLength : Option Nat) : String :=
  let index_name := oldRawName table_name column_names suffix
  if index_name.length ≤ oldMaxLength maxNameLength then index_name
  else dPrepend (oldTruncatedName table_name column_names suffix maxNameLength)

/-! ### The hashtag usage counter
(`django_utils/dju_taggit_core/signals.py`)

Abstract database model: tags (rows of the tag table, with the
`HashtagBase` subtype carrying `count`/`last_used`; for tags outside that
subtype the two fields are inert and never touched) and tagged items (rows of
the tagging-association tables, with the `HashtaggedItemBase` subtype
carrying `created_at`).  `isHashtag`/`isHashtagged` model the `isinstance`
subtype tests of the handlers; the reverse-relation scan over
`ManyToOneRel` fields is modelled as a scan over all association rows
referencing the tag, and the per-related-model
`filter(tag=tag).order_by('-created_at').first()` maximum as the maximum
`created_at` over surviving hashtagged rows referencing the tag. -/

structure Tag where
  id : Nat
  /-- whether the row is of the usage-counted subtype `HashtagBase` -/
  isHashtag : Bool
  count : Int
  lastUsed : Option Nat
deriving DecidableEq, Repr

structure TaggedItem where
  id : Nat
  /-- the tag foreign key -/
  tagId : Nat
  /-- whether the row is of the usage-counted subtype `HashtaggedItemBase` -/
  isHashtagged : Bool
  createdAt : Nat
deriving DecidableEq, Repr

structure DB where
  tags : List Tag
  items : List TaggedItem
deriving DecidableEq, Repr

/-- Dereference the `instance.tag` foreign key. -/
def findTag (db : DB) (tid : Nat) : Option Tag :=
  db.tags.find? (fun u => u.id == tid)

/-- `tag.save()`: update the tag row by primary key. -/
def saveTag (db : DB) (t : Tag) : DB :=
  { db with tags := db.tags.map (fun u => if u.id == t.id then t else u) }

/-- `post_save_hashtagged_item` (lines 21–34 of `signals.py`): on a save of a
`HashtaggedItemBase` instance with `created is True`, if its tag is a
`HashtagBase`, increment `count` and push `last_used` forward to the item's
`created_at` when it is newer (or `last_used` is null). -/
def post_save_hashtagged_item (db : DB) (inst : TaggedItem)
    (created : Bool) : DB :=
  if inst.isHashtagged && created then
    match findTag db inst.tagId with
    | none => db
    | some hashtag =>
      if hashtag.isHashtag then
        let hashtag := { hashtag with count := hashtag.count + 1 }
        let hashtag :=
          match hashtag.lastUsed with
          | none => { hashtag with lastUsed := some inst.createdAt }
          | some lu =>
            if lu < inst.createdAt then
              { hashtag with lastUsed := some inst.createdAt }
            else hashtag
        saveTag db hashtag
      else db
  else db

/-- `max` of the `created_at` values of a list of rows, `none` when empty:
the net effect of the per-relation `order_by('-created_at').first()` loop of
lines 64–77 of `signals.py`. -/
def latestCreatedAt (items : List TaggedItem) : Option Nat :=
  items.foldl
    (fun acc i =>
      match acc with
      | none => some i.createdAt
      | some m => if m < i.createdAt then some i.createdAt else some m)
    none

/-- `post_delete_hashtagged_item` (lines 36–80 of `signals.py`), run after
the association row has been removed from the database.  `autoRemove` is the
`DJANGO_UTILS_TAGGIT_AUTO_REMOVE_UNUSED_TAGS` setting. -/
def post_delete_hashtagged_item (autoRemove : Bool) (db : DB)
    (inst : TaggedItem) : DB :=
  -- every modelled row is a `TaggedItemBase` and every tag a `TagBase`,
  -- so those two `isinstance` guards always pass
  match findTag db inst.tagId with
  | none => db
  | some tag =>
    let tag_is_used := db.items.any (fun i => i.tagId == tag.id)
    let db1 :=
      if tag_is_used = false && autoRemove then
        { db with tags := db.tags.filter (fun u => !(u.id == tag.id)) }
      else db
    if tag_is_used = true && inst.isHashtagged && tag.isHashtag then
      let last_used := latestCreatedAt
        (db1.items.filter (fun i => i.isHashtagged && i.tagId == tag.id))
      saveTag db1 { tag with count := tag.count - 1, lastUsed := last_used }
    else db1

/-- Lifecycle events on the association table. -/
inductive Event where
  /-- insert a row, then dispatch `post_save` with `created=True` -/
  | createItem (item : TaggedItem)
  /-- a non-creating save: dispatch `post_save` with `created=False` -/
  | saveItem (item : TaggedItem)
  /-- delete the row with this id, then dispatch `post_delete` on it -/
  | deleteItem (itemId : Nat)
deriving DecidableEq, Repr

/-- One lifecycle event: the row change becomes visible first, then the
signal handler runs (Django dispatches `post_save`/`post_delete` after the
row write/removal). -/
def step (autoRemove : Bool) (db : DB) (e : Event) : DB :=
  match e with
  | .createItem item =>
    post_save_hashtagged_item { db with items := db.items ++ [item] } item true
  | .saveItem item =>
    post_save_hashtagged_item db item false
  | .deleteItem itemId =>
    match db.items.find? (fun i => i.id == itemId) with
    | none => db
    | some item =>
      post_delete_hashtagged_item autoRemove
        { db with items := db.items.filter (fun i => !(i.id == itemId)) } item

/-- Run a sequence of lifecycle events. -/
def runTrace (autoRemove : Bool) (db : DB) (events : List Event) : DB :=
  events.foldl (step autoRemove) db

/-- A fresh hashtag: usage-counted subtype, `count = 0`, `last_used` null. -/
def freshHashtag : Tag := { id := 0, isHashtag := true, count := 0, lastUsed := none }

/-- Initial database: one fresh hashtag, no association rows. -/
def freshDB : DB := { tags := [freshHashtag], items := [] }

/-! ### Helper lemmas -/

theorem str_ext {a b : String} (h : a.data = b.data) : a = b :=
  congrArg String.mk h

theorem str_data_append (a b : String) : (a ++ b).data = a.data ++ b.data := rfl

theorem strLen_mk (l : List Char) : (String.mk l).length = l.length := rfl

theorem str_length_data (s : String) : s.length = s.data.length := rfl

theorem strLen_append (a b : String) : (a ++ b).length = a.length + b.length := by
  show (a ++ b).data.length = a.data.length + b.data.length
  rw [str_data_append, List.length_append]

theorem str_eq_empty_iff (s : String) : s = "" ↔ s.data = [] := by
  constructor
  · intro h; rw [h]
  · intro h; exact str_ext h

theorem byteHex_flatten_length (l : List Nat) :
    ((l.map byteHex).flatten).length = 2 * l.length := by
  induction l with
  | nil => rfl
  | cons a l ih =>
    simp only [List.map_cons, List.flatten_cons, List.length_append,
      List.length_cons, byteHex, List.length_nil]
    omega

theorem wordBytesLE_length (w : Nat) : (wordBytesLE w).length = 4 := rfl

theorem md5Bytes_length (msg : List Nat) : (md5Bytes msg).length = 16 := by
  show (wordBytesLE _ ++ wordBytesLE _ ++ wordBytesLE _ ++ wordBytesLE _).length = 16
  simp only [List.length_append, wordBytesLE_length]

theorem md5hex_length (msg : List Nat) : (md5hex msg).length = 32 := by
  show ((md5Bytes msg).map byteHex).flatten.length = 32
  rw [byteHex_flatten_length, md5Bytes_length]

theorem pySliceTo_length (n : Int) (s : String) :
    (pySliceTo n s).length =
      if 0 ≤ n then min n.toNat s.length else s.length - (-n).toNat := by
  by_cases h : 0 ≤ n
  · rw [pySliceTo, if_pos h, if_pos h, strLen_mk, List.length_take]; rfl
  · rw [pySliceTo, if_neg h, if_neg h, strLen_mk, List.length_take]
    rw [str_length_data]
    omega

theorem names_digest_sub_length (args : List String) (sl : Nat) :
    (names_digest args (9 - (sl : Int))).length =
      if sl ≤ 9 then 9 - sl else 32 - (sl - 9) := by
  unfold names_digest
  rw [pySliceTo_length, md5hex_length]
  split <;> split <;> omega

theorem rawName_length (t : String) (fields : List String) (s : String) :
    (rawName t fields s).length =
      (pyTake 11 (processedTable t)).length +
        (pyTake 7 ((columnNames fields).headD "")).length +
        (names_digest (hashData t fields s) (9 - (s.length : Int))).length +
        s.length + 3 := by
  have h1 : ("_" : String).length = 1 := rfl
  simp only [rawName, strLen_append, h1]
  omega

theorem dFixList_length (l : List Char) : (dFixList l).length = l.length := by
  cases l with
  | nil => rfl
  | cons c rest =>
    simp only [dFixList]
    split <;> rfl

theorem dReplace_length (s : String) : (dReplace s).length = s.length := by
  show (dFixList s.data).length = s.data.length
  exact dFixList_length s.data

theorem rawName_data (t : String) (fields : List String) (s : String) :
    (rawName t fields s).data =
      (pyTake 11 (processedTable t)).data ++
        '_' :: ((pyTake 7 ((columnNames fields).headD "")).data ++
          '_' :: ((names_digest (hashData t fields s) (9 - (s.length : Int))).data ++
            '_' :: s.data)) := by
  have h1 : ("_" : String).data = ['_'] := rfl
  simp only [rawName, str_data_append, h1, List.append_assoc,
    List.singleton_append, List.cons_append, List.nil_append]

theorem columnNames_ne_nil {fields : List String} (h : fields ≠ []) :
    (columnNames fields).isEmpty = false := by
  cases fields with
  | nil => exact absurd rfl h
  | cons a l => simp [columnNames, fieldsOrders]

theorem find?_map_saveTag (l : List Tag) (tid : Nat) (tnew : Tag)
    (hid : tnew.id = tid)
    (h : (l.find? (fun u => u.id == tid)).isSome = true) :
    (l.map (fun u => if u.id == tnew.id then tnew else u)).find?
      (fun u => u.id == tid) = some tnew := by
  subst hid
  induction l with
  | nil => simp [List.find?] at h
  | cons a l ih =>
    by_cases ha : a.id = tnew.id
    · have hfa : (if a.id == tnew.id then tnew else a) = tnew := by simp [ha]
      simp only [List.map_cons, hfa]
      rw [List.find?_cons_of_pos _ (by simp)]
    · have hfa : (if a.id == tnew.id then tnew else a) = a := by simp [ha]
      simp only [List.map_cons, hfa]
      rw [List.find?_cons_of_neg _ (by simp [ha])]
      rw [List.find?_cons_of_neg _ (by simp [ha])] at h
      exact ih h

/-! ### Claim theorems -/

/-- C9: for every table name and suffix, calling `create_generic_index_name`
with an empty columns collection raises an error (the `IndexError` from
`column_names[0]`) rather than returning any name. -/
theorem c9_empty_columns_raise (table_name suffix : String) :
    create_generic_index_name table_name [] suffix = .error .indexError := rfl

/-- C7 counterexample: the output of `create_generic_index_name` depends on
the order in which the columns collection is iterated — the two iteration
orders of the two-element set of columns `a` and `b` produce different names
(both the readable column part and the digest differ).  The source's
signature and its `isallinstance` check also admit `set[str]` columns, and
CPython iterates a multi-element string set in an order that depends on the
per-process hash seed, so an identical set input can yield different output
strings in different runs — refuting the claim as stated for set inputs. -/
theorem c7_counterexample :
    create_generic_index_name "tbl" ["a", "b"] "idx" ≠
      create_generic_index_name "tbl" ["b", "a"] "idx" := by
  decide

/-- C7 (amended): `create_generic_index_name` is a pure function of the table
name, the ordered column sequence, and the suffix — two invocations with
equal table name, equal column sequence (same elements in the same order) and
equal suffix produce identical output strings, stably across runs (the source
consults nothing but its arguments and MD5).  The column order matters,
however, so for a `set[str]` columns argument the output is only as stable as
the set's iteration order. -/
theorem c7_amended :
    (∀ (t1 t2 : String) (f1 f2 : List String) (s1 s2 : String),
      t1 = t2 → f1 = f2 → s1 = s2 →
      create_generic_index_name t1 f1 s1 = create_generic_index_name t2 f2 s2) ∧
    create_generic_index_name "tbl" ["a", "b"] "idx" ≠
      create_generic_index_name "tbl" ["b", "a"] "idx" := by
  refine ⟨?_, by decide⟩
  intro t1 t2 f1 f2 s1 s2 ht hf hs
  rw [ht, hf, hs]

/-- Witness for C7 (amended) at a concrete input. -/
theorem c7_amended_witness :
    ("orders" : String) = "orders" ∧
      create_generic_index_name "orders" ["created"] "idx" =
        create_generic_index_name "orders" ["created"] "idx" :=
  ⟨rfl, c7_amended.1 "orders" "orders" ["created"] ["created"] "idx" "idx"
    rfl rfl rfl⟩

/-- C4: for every valid input (non-empty columns), if the composed name
exceeds 30 characters then `create_generic_index_name` raises the
capacity-violation `ValueError` and never returns a (truncated) name. -/
theorem c4_overlong_raises (t : String) (fields : List String) (s : String)
    (hne : fields ≠ []) (hlong : 30 < (rawName t fields s).length) :
    create_generic_index_name t fields s = .error .valueError := by
  unfold create_generic_index_name
  rw [columnNames_ne_nil hne]
  simp [hlong]

/-- Witness for C4: a 10-character suffix on a long table/column combination
composes to 62 characters and raises the capacity-violation error. -/
theorem c4_overlong_raises_witness :
    (["column_name"] : List String) ≠ [] ∧
      30 < (rawName "some_long_table_name" ["column_name"] "abcdefghij").length ∧
      create_generic_index_name "some_long_table_name" ["column_name"] "abcdefghij" =
        .error .valueError :=
  ⟨by decide, by decide,
    c4_overlong_raises "some_long_table_name" ["column_name"] "abcdefghij"
      (by decide) (by decide)⟩

/-- C1: the count/last-used invariant FAILS on the code.  Starting from a
fresh hashtag, creating one usage-counted tagged item (`created_at = 5`) and
then deleting it (auto-remove disabled) leaves the hashtag with `count = 1`
and `last_used = 5` although zero usage-counted rows survive: the delete
handler updates the tag only when `tag_is_used` is still true, so the last
deletion decrements nothing. -/
theorem c1_invariant_fails_after_last_delete :
    runTrace false freshDB
        [.createItem ⟨0, 0, true, 5⟩, .deleteItem 0] =
      { tags := [{ id := 0, isHashtag := true, count := 1, lastUsed := some 5 }],
        items := [] } := by
  decide

/-- C2: with auto-remove enabled, deleting the last tagged item deletes the
tag (first half of the claim, which holds); with auto-remove disabled the
code leaves the surviving tag with `count = 1` and `last_used = 7` — NOT
`count = 0`, `last_used = null` as claimed. -/
theorem c2_last_delete_disabled_flag_divergence :
    runTrace true freshDB
        [.createItem ⟨1, 0, true, 7⟩, .deleteItem 1] =
      { tags := [], items := [] } ∧
    runTrace false freshDB
        [.createItem ⟨1, 0, true, 7⟩, .deleteItem 1] =
      { tags := [{ id := 0, isHashtag := true, count := 1, lastUsed := some 7 }],
        items := [] } := by
  exact ⟨by decide, by decide⟩

/-- C10: a save that is not a creation, or of an instance outside the
usage-counted tagged-item subtype, or whose tag is not of the usage-counted
tag subtype, leaves the database — in particular every tag's `count` and
`last_used` — unchanged. -/
theorem c10_post_save_frame (db : DB) (item : TaggedItem) (created : Bool)
    (h : created = false ∨ item.isHashtagged = false ∨
      ∀ tag, findTag db item.tagId = some tag → tag.isHashtag = false) :
    post_save_hashtagged_item db item created = db := by
  unfold post_save_hashtagged_item
  rcases h with h | h | h
  · rw [h]; simp
  · rw [h]; simp
  · cases hf : findTag db item.tagId with
    | none => split <;> rfl
    | some tag =>
      have htg := h tag hf
      split
      · simp [htg]
      · rfl

/-- Witness for C10: a non-usage-counted tagged item save is a no-op. -/
theorem c10_post_save_frame_witness :
    (({ id := 2, tagId := 0, isHashtagged := false, createdAt := 9 } :
        TaggedItem).isHashtagged = false) ∧
      post_save_hashtagged_item freshDB
        { id := 2, tagId := 0, isHashtagged := false, createdAt := 9 } true =
        freshDB :=
  ⟨rfl, c10_post_save_frame freshDB
    { id := 2, tagId := 0, isHashtagged := false, createdAt := 9 } true
    (Or.inr (Or.inl rfl))⟩

/-- C5: on creation of a usage-counted tagged item whose tag is a
usage-counted tag, the handler increments that tag's `count` by exactly 1 and
sets `last_used` to the item's `created_at` exactly when `last_used` was null
or earlier than that `created_at`; otherwise `last_used` is unchanged. -/
theorem c5_post_save_creation (db : DB) (item : TaggedItem) (tag : Tag)
    (hfind : findTag db item.tagId = some tag)
    (hitem : item.isHashtagged = true) (htag : tag.isHashtag = true) :
    ∃ tag', findTag (post_save_hashtagged_item db item true) item.tagId = some tag' ∧
      tag'.id = tag.id ∧ tag'.isHashtag = tag.isHashtag ∧
      tag'.count = tag.count + 1 ∧
      ((tag.lastUsed = none ∨ ∃ lu, tag.lastUsed = some lu ∧ lu < item.createdAt) →
        tag'.lastUsed = some item.createdAt) ∧
      (∀ lu, tag.lastUsed = some lu → ¬ lu < item.createdAt →
        tag'.lastUsed = tag.lastUsed) := by
  have hid : tag.id = item.tagId := by
    simpa using List.find?_some hfind
  have hsome : (db.tags.find? (fun u => u.id == item.tagId)).isSome = true := by
    show (findTag db item.tagId).isSome = true
    rw [hfind]
    rfl
  cases hlu : tag.lastUsed with
  | none =>
    have hstep : post_save_hashtagged_item db item true =
        saveTag db { tag with count := tag.count + 1, lastUsed := some item.createdAt } := by
      unfold post_save_hashtagged_item
      rw [hitem, hfind]
      simp [htag, hlu]
    refine ⟨{ tag with count := tag.count + 1, lastUsed := some item.createdAt },
      ?_, rfl, rfl, rfl, fun _ => rfl, ?_⟩
    · rw [hstep]
      exact find?_map_saveTag db.tags item.tagId
        { tag with count := tag.count + 1, lastUsed := some item.createdAt } hid hsome
    · intro lu hlu2
      exact Option.noConfusion hlu2
  | some lu =>
    by_cases hcmp : lu < item.createdAt
    · have hstep : post_save_hashtagged_item db item true =
          saveTag db { tag with count := tag.count + 1, lastUsed := some item.createdAt } := by
        unfold post_save_hashtagged_item
        rw [hitem, hfind]
        simp [htag, hlu, hcmp]
      refine ⟨{ tag with count := tag.count + 1, lastUsed := some item.createdAt },
        ?_, rfl, rfl, rfl, fun _ => rfl, ?_⟩
      · rw [hstep]
        exact find?_map_saveTag db.tags item.tagId
          { tag with count := tag.count + 1, lastUsed := some item.createdAt } hid hsome
      · intro lu2 hlu2 hcmp2
        cases hlu2
        exact absurd hcmp hcmp2
    · have hstep : post_save_hashtagged_item db item true =
          saveTag db { tag with count := tag.count + 1, lastUsed := some lu } := by
        unfold post_save_hashtagged_item
        rw [hitem, hfind]
        simp [htag, hlu, hcmp]
      refine ⟨{ tag with count := tag.count + 1, lastUsed := some lu },
        ?_, rfl, rfl, rfl, ?_, fun _ _ _ => rfl⟩
      · rw [hstep]
        exact find?_map_saveTag db.tags item.tagId
          { tag with count := tag.count + 1, lastUsed := some lu } hid hsome
      · intro hdisj
        rcases hdisj with hnone | ⟨lu2, hlu2, hcmp2⟩
        · exact Option.noConfusion hnone
        · cases hlu2
          exact absurd hcmp2 hcmp

/-- Witness for C5: creating the first item (`created_at = 5`) on a fresh
hashtag yields `count = 1`, `last_used = 5`. -/
theorem c5_post_save_creation_witness :
    findTag freshDB 0 = some freshHashtag ∧
      (∃ tag', findTag (post_save_hashtagged_item freshDB ⟨0, 0, true, 5⟩ true) 0 =
          some tag' ∧
        tag'.id = freshHashtag.id ∧ tag'.isHashtag = freshHashtag.isHashtag ∧
        tag'.count = freshHashtag.count + 1 ∧
        ((freshHashtag.lastUsed = none ∨
            ∃ lu, freshHashtag.lastUsed = some lu ∧ lu < 5) →
          tag'.lastUsed = some 5) ∧
        (∀ lu, freshHashtag.lastUsed = some lu → ¬ lu < 5 →
          tag'.lastUsed = freshHashtag.lastUsed)) :=
  ⟨rfl, c5_post_save_creation freshDB ⟨0, 0, true, 5⟩ freshHashtag rfl rfl rfl⟩

/-- C8: `create_generic_index_name` lowercases the table name (and strips a
quoted schema qualifier) before use, so its output is invariant under table
name case changes; column-name case is not normalized, so changing only a
column's case changes the output. -/
theorem c8_case_normalization :
    (∀ t1 t2 fields s, pyLower t1 = pyLower t2 →
      create_generic_index_name t1 fields s = create_generic_index_name t2 fields s) ∧
    create_generic_index_name "\"Public\".\"Orders\"" ["a"] "idx" =
      create_generic_index_name "orders" ["a"] "idx" ∧
    create_generic_index_name "tbl" ["Col"] "idx" ≠
      create_generic_index_name "tbl" ["col"] "idx" := by
  refine ⟨?_, by decide, by decide⟩
  intro t1 t2 fields s h
  have hp : processedTable t1 = processedTable t2 := by
    unfold processedTable
    rw [h]
  simp only [create_generic_index_name, rawName, hashData, hp]

/-- Witness for C8: two table-name spellings differing only in case yield the
same generated name. -/
theorem c8_case_normalization_witness :
    pyLower "Public" = pyLower "public" ∧
      create_generic_index_name "Public" ["a"] "idx" =
        create_generic_index_name "public" ["a"] "idx" :=
  ⟨by decide, c8_case_normalization.1 "Public" "public" ["a"] "idx" (by decide)⟩

/-- Elimination for a successful run of the generator: the columns were
non-empty, the composed name fit the 30-character budget, and the returned
name is the composed name after the leading-character fix. -/
theorem create_ok_elim (t : String) (fields : List String) (s name : String)
    (h : create_generic_index_name t fields s = .ok name) :
    (columnNames fields).isEmpty = false ∧ (rawName t fields s).length ≤ 30 ∧
      name = dReplace (rawName t fields s) := by
  unfold create_generic_index_name at h
  split at h
  · exact absurd h (by simp)
  · rename_i hempty
    have h2 : (if 30 < (rawName t fields s).length then
        (Except.error PyError.valueError : Except PyError String)
      else Except.ok (dReplace (rawName t fields s))) = Except.ok name := h
    split at h2
    · exact absurd h2 (by simp)
    · rename_i hlen
      refine ⟨by simpa using hempty, by omega, ?_⟩
      exact ((Except.ok.injEq _ _).mp h2).symm

/-- On any successful run the suffix is at most 9 characters long: a longer
suffix forces a digest of `32 - (len(suffix) - 9)` characters (Python slicing
with a negative stop), which overshoots the 30-character budget. -/
theorem ok_suffix_le_9 (t : String) (fields : List String) (s : String)
    (hlen : (rawName t fields s).length ≤ 30) : s.length ≤ 9 := by
  rw [rawName_length] at hlen
  have hd := names_digest_sub_length (hashData t fields s) s.length
  by_contra hgt
  push_neg at hgt
  rw [if_neg (by omega)] at hd
  omega

/-- Shape of the fixed name when the processed table name is empty: the
composed name starts with the separator underscore, which the fix replaces by
`D`, merging the table slot into the readable column part. -/
theorem dReplace_data (s : String) : (dReplace s).data = dFixList s.data := rfl

theorem dReplace_rawName_of_table_empty (t : String) (fields : List String)
    (s : String) (htbl : processedTable t = "") :
    dReplace (rawName t fields s) =
      "D" ++ pyTake 7 ((columnNames fields).headD "") ++ "_" ++
        names_digest (hashData t fields s) (9 - (s.length : Int)) ++ "_" ++ s := by
  have h0 : (pyTake 11 (processedTable t)).data = [] := by
    show (processedTable t).data.take 11 = []
    rw [(str_eq_empty_iff _).mp htbl]
    rfl
  have hU : ("_" : String).data = ['_'] := rfl
  have hD : ("D" : String).data = ['D'] := rfl
  have hfix : ∀ l : List Char, dFixList ('_' :: l) = 'D' :: l := by
    intro l
    simp [dFixList]
  apply str_ext
  rw [dReplace_data, rawName_data, h0, List.nil_append, hfix]
  simp [str_data_append, hU, hD, List.append_assoc]

/-- Shape of the fixed name when the processed table name is non-empty: the
leading-character fix touches only the first character of the table part. -/
theorem dReplace_rawName_of_table_ne (t : String) (fields : List String)
    (s : String) (htbl : processedTable t ≠ "") :
    dReplace (rawName t fields s) =
      dReplace (pyTake 11 (processedTable t)) ++ "_" ++
        pyTake 7 ((columnNames fields).headD "") ++ "_" ++
        names_digest (hashData t fields s) (9 - (s.length : Int)) ++ "_" ++ s := by
  have hd : (processedTable t).data ≠ [] := by
    intro hnil
    exact htbl ((str_eq_empty_iff _).mpr hnil)
  obtain ⟨c, cs, hcons⟩ := List.exists_cons_of_ne_nil hd
  have ht11 : (pyTake 11 (processedTable t)).data = c :: cs.take 10 := by
    show (processedTable t).data.take 11 = _
    rw [hcons]
    rfl
  have hU : ("_" : String).data = ['_'] := rfl
  apply str_ext
  rw [dReplace_data, rawName_data, ht11]
  simp only [str_data_append, dReplace_data, ht11, List.cons_append, hU]
  by_cases hc : c = '_' ∨ c.isDigit = true
  · have hfix : ∀ l : List Char, dFixList (c :: l) = 'D' :: l := by
      intro l
      simp only [dFixList]
      rw [if_pos hc]
    rw [hfix, hfix]
    simp [List.append_assoc]
  · have hfix : ∀ l : List Char, dFixList (c :: l) = c :: l := by
      intro l
      simp only [dFixList]
      rw [if_neg hc]
    rw [hfix, hfix]
    simp [List.append_assoc]

/-- C3 counterexample: at `table_name = ""` (a valid input) the returned name
does NOT have the claimed form `{prefix}_{col}_{digest}_{suffix}` — the
leading-character fix replaces the separator underscore itself, so no prefix
makes the pattern match. -/
theorem c3_counterexample :
    create_generic_index_name "" ["a"] "idx" = .ok "Da_828cdb_idx" ∧
      ¬ ∃ p, "Da_828cdb_idx" = p ++ "_" ++ pyTake 7 "a" ++ "_" ++
        names_digest (hashData "" ["a"] "idx") (9 - (("idx" : String).length : Int)) ++
        "_" ++ "idx" := by
  refine ⟨rfl, ?_⟩
  rintro ⟨p, hp⟩
  have hlen := congrArg String.length hp
  simp only [strLen_append] at hlen
  have e1 : ("Da_828cdb_idx" : String).length = 13 := rfl
  have e2 : ("_" : String).length = 1 := rfl
  have e3 : (pyTake 7 "a").length = 1 := rfl
  have e4 : (names_digest (hashData "" ["a"] "idx")
      (9 - (("idx" : String).length : Int))).length = 6 := rfl
  have e5 : ("idx" : String).length = 3 := rfl
  rw [e1, e2, e3, e4, e5] at hlen
  have hp0 : p.length = 0 := by omega
  have hpe : p = "" := (str_eq_empty_iff p).mpr (List.eq_nil_of_length_eq_zero hp0)
  rw [hpe] at hp
  exact absurd hp (by decide)

/-- C3 (amended): for every valid input on which it returns, the result has
length at most 30, the suffix is at most 9 characters, digest and suffix
together span exactly 9 characters (digest length `9 - len(suffix)`), and the
name is the truncated table part (first character replaced by `D` when it is
an underscore or digit), underscore, first bare column name truncated to 7
characters, underscore, digest, underscore, suffix — except that when the
processed table name is empty the leading separator underscore itself is
replaced by `D`, so `D` abuts the column part directly. -/
theorem c3_amended (t : String) (fields : List String) (s name : String)
    (h : create_generic_index_name t fields s = .ok name) :
    name.length ≤ 30 ∧ s.length ≤ 9 ∧
      (names_digest (hashData t fields s) (9 - (s.length : Int))).length + s.length = 9 ∧
      name = (if processedTable t = "" then
          "D" ++ pyTake 7 ((columnNames fields).headD "") ++ "_" ++
            names_digest (hashData t fields s) (9 - (s.length : Int)) ++ "_" ++ s
        else
          dReplace (pyTake 11 (processedTable t)) ++ "_" ++
            pyTake 7 ((columnNames fields).headD "") ++ "_" ++
            names_digest (hashData t fields s) (9 - (s.length : Int)) ++ "_" ++ s) := by
  obtain ⟨hempty, hlen, hname⟩ := create_ok_elim t fields s name h
  have hsl : s.length ≤ 9 := ok_suffix_le_9 t fields s hlen
  refine ⟨?_, hsl, ?_, ?_⟩
  · rw [hname, dReplace_length]
    exact hlen
  · have hdl := names_digest_sub_length (hashData t fields s) s.length
    rw [if_pos hsl] at hdl
    omega
  · by_cases htbl : processedTable t = ""
    · rw [if_pos htbl, hname]
      exact dReplace_rawName_of_table_empty t fields s htbl
    · rw [if_neg htbl, hname]
      exact dReplace_rawName_of_table_ne t fields s htbl

/-- Witness for C3 (amended) at a concrete input. -/
theorem c3_amended_witness :
    create_generic_index_name "orders" ["created"] "idx" =
        .ok "orders_created_7a96a6_idx" ∧
      (("orders_created_7a96a6_idx" : String).length ≤ 30 ∧
        ("idx" : String).length ≤ 9 ∧
        (names_digest (hashData "orders" ["created"] "idx")
            (9 - (("idx" : String).length : Int))).length +
          ("idx" : String).length = 9 ∧
        "orders_created_7a96a6_idx" = (if processedTable "orders" = "" then
            "D" ++ pyTake 7 ((columnNames ["created"]).headD "") ++ "_" ++
              names_digest (hashData "orders" ["created"] "idx")
                (9 - (("idx" : String).length : Int)) ++ "_" ++ "idx"
          else
            dReplace (pyTake 11 (processedTable "orders")) ++ "_" ++
              pyTake 7 ((columnNames ["created"]).headD "") ++ "_" ++
              names_digest (hashData "orders" ["created"] "idx")
                (9 - (("idx" : String).length : Int)) ++ "_" ++ "idx")) :=
  ⟨rfl, c3_amended "orders" ["created"] "idx" "orders_created_7a96a6_idx" rfl⟩

/-- C6 counterexample: the OLD generator variant applies no leading-character
replacement on its early-return path — with the spec's own example table name
`"2fa_codes"` it returns a name that still begins with the digit `2`,
refuting the claim that both variants never return a name beginning with an
underscore or a digit. -/
theorem c6_counterexample :
    create_generic_index_name_old "2fa_codes" ["code"] "idx" none =
        "2fa_codes_code_d93bc1dd_idx" ∧
      ("2fa_codes_code_d93bc1dd_idx" : String).data.head? = some '2' ∧
      ('2').isDigit = true :=
  ⟨rfl, rfl, rfl⟩

/-- C6 (amended): the CURRENT generator, whenever it returns, applies the
leading-character fix — the result is the composed name with its first
character replaced by `D` when that character is an underscore or a digit, so
the result has the same length as the composed name and never begins with an
underscore or a digit.  The OLD variant instead returns the composed name
unchanged (no fix at all) whenever it fits the length budget, and on the
truncation path prepends `D` and drops the final character rather than
replacing the first one. -/
theorem c6_amended :
    (∀ t fields s name, create_generic_index_name t fields s = .ok name →
      name = dReplace (rawName t fields s) ∧
      name.length = (rawName t fields s).length ∧
      ∀ c, name.data.head? = some c → ¬(c = '_' ∨ c.isDigit = true)) ∧
    (∀ t cs s m, (oldRawName t cs s).length ≤ oldMaxLength m →
      create_generic_index_name_old t cs s m = oldRawName t cs s) ∧
    (∀ t cs s m, ¬ (oldRawName t cs s).length ≤ oldMaxLength m →
      create_generic_index_name_old t cs s m =
        dPrepend (oldTruncatedName t cs s m)) := by
  refine ⟨?_, ?_, ?_⟩
  · intro t fields s name h
    obtain ⟨-, -, hname⟩ := create_ok_elim t fields s name h
    refine ⟨hname, by rw [hname, dReplace_length], ?_⟩
    intro c hc
    rw [hname, dReplace_data] at hc
    revert hc
    cases hd : (rawName t fields s).data with
    | nil => simp [dFixList]
    | cons c0 rest =>
      by_cases hc0 : c0 = '_' ∨ c0.isDigit = true
      · have hfix : dFixList (c0 :: rest) = 'D' :: rest := by
          simp only [dFixList]
          rw [if_pos hc0]
        rw [hfix]
        intro hh
        have hcD : c = 'D' := by simpa using hh.symm
        subst hcD
        decide
      · have hfix : dFixList (c0 :: rest) = c0 :: rest := by
          simp only [dFixList]
          rw [if_neg hc0]
        rw [hfix]
        intro hh
        have hcc : c0 = c := by simpa using hh
        subst hcc
        exact hc0
  · intro t cs s m h
    show (if (oldRawName t cs s).length ≤ oldMaxLength m then oldRawName t cs s
      else dPrepend (oldTruncatedName t cs s m)) = oldRawName t cs s
    rw [if_pos h]
  · intro t cs s m h
    show (if (oldRawName t cs s).length ≤ oldMaxLength m then oldRawName t cs s
      else dPrepend (oldTruncatedName t cs s m)) = dPrepend (oldTruncatedName t cs s m)
    rw [if_neg h]

/-- Witness for C6 (amended): the current variant on `"2fa_codes"` replaces
the leading `2` by `D`. -/
theorem c6_amended_witness :
    "Dfa_codes_code_5394d4_idx" = dReplace (rawName "2fa_codes" ["code"] "idx") ∧
      ("Dfa_codes_code_5394d4_idx" : String).length =
        (rawName "2fa_codes" ["code"] "idx").length ∧
      ∀ c, ("Dfa_codes_code_5394d4_idx" : String).data.head? = some c →
        ¬(c = '_' ∨ c.isDigit = true) :=
  c6_amended.1 "2fa_codes" ["code"] "idx" "Dfa_codes_code_5394d4_idx" rfl
